import Mathlib

/-!
Verification development for the `ghreport` Go library (`report.go`).

The Go source is shallowly embedded below.  Remote GraphQL calls are
modelled by an oracle (`Remote`) mapping each issued request to either a
deserialized response or a transport error; the functions of `report.go`
are translated one-to-one, instrumented so that the list of issued
requests is part of the result.  Go's `nil` function-call panic on the
unset `Log` callback is modelled by a dedicated `RunResult.panicked`
outcome, and the `Log` field itself by a `Bool` recording whether a
logging sink has been installed.

Timestamps: Go's `time.Parse(ISO_FORM, s)` is modelled by `parseISO`,
chunk by chunk after Go's `format.go` for the layout
`"2006-01-02T15:04:05Z"`: a four-digit year (`stdLongYear`, years
0000-9999, no range check), literal `-`, two-digit month and day
(`getnum` fixed), literal `T`, a one-or-two-digit hour (`stdHour` uses
`getnum(value, false)`), literal `:`, two-digit minute and second, an
optional fractional second (a comma or period followed by a digit run,
which Go consumes even though the layout has no fractional-second
chunk), and a trailing literal `Z`; month 1-12, calendar-valid day
(Gregorian leap years), hour 0-23, minute and second 0-59 are enforced
as in Go.  An accepted date-time is mapped to an `Int` through a
mixed-radix encoding (nanoseconds included) that is strictly monotone
in the date-time.  Go's zero `Time` (January 1, year 1), which
`time.Parse` returns on failure when the error is discarded,
corresponds to the encoding value `0`, so year-0 date-times — which Go
parses — encode to negative values; `goTimeParse` returns `0` for an
unparseable string, mirroring the `t, _ := time.Parse(...)` idiom of
the source.  `t.After(u)` is `timeAfter t u`.  Cutoff timestamps
(`since`, of type `Nat`) are times at or after the zero `Time`, which
holds of every cutoff derived from the present-day clock as in `Run`.
-/

namespace ghreport

/-- Layout constant `ISO_FORM` from `report.go`. -/
def ISO_FORM : String := "2006-01-02T15:04:05Z"

/-- PageInfoStruct: pagination metadata of the GitHub GraphQL API. -/
structure PageInfoStruct where
  hasNextPage : Bool
  startCursor : String
  endCursor : String
  hasPreviousPage : Bool
deriving DecidableEq

/-- RateLimitStruct: rate-limit metadata attached to every response. -/
structure RateLimitStruct where
  limit : Int
  cost : Int
  remaining : Int
  resetAt : String
deriving DecidableEq

/-- UserStruct: a GitHub user. -/
structure UserStruct where
  login : String
deriving DecidableEq

/-- Participants connection of a pull request (`Participants` field of `PRStruct`). -/
structure ParticipantsConn where
  nodes : List UserStruct
  pageInfo : PageInfoStruct
  totalCount : Int
deriving DecidableEq

/-- Timeline connection of a pull request (`Timeline` field of `PRStruct`). -/
structure TimelineConn where
  totalCount : Int
deriving DecidableEq

/-- PRStruct: a pull request as deserialized from the API. -/
structure PRStruct where
  number : Int
  title : String
  repository : String
  createdAt : String
  mergedAt : String
  state : String
  participants : ParticipantsConn
  timeline : TimelineConn
deriving DecidableEq

/-- Node of the repository listing response (`name` plus `owner`). -/
structure RepoNode where
  name : String
  owner : UserStruct
deriving DecidableEq

/-- Repositories connection of the listing response. -/
structure RepositoriesConn where
  nodes : List RepoNode
  pageInfo : PageInfoStruct
  totalCount : Int
deriving DecidableEq

/-- Organization field of `repositoriesResponseStruct`. -/
structure OrganizationField where
  repositories : RepositoriesConn
deriving DecidableEq

/-- repositoriesResponseStruct: response of a repository-listing query. -/
structure repositoriesResponseStruct where
  organization : OrganizationField
  rateLimit : RateLimitStruct
deriving DecidableEq

/-- Connection of pull-request nodes (`MergedPR` / `OpenPR`). -/
structure PRConn where
  nodes : List PRStruct
  pageInfo : PageInfoStruct
  totalCount : Int
deriving DecidableEq

/-- Commit node of a branch history. -/
structure CommitNode where
  oid : String
  committedDate : String
  author : UserStruct
  message : String
deriving DecidableEq

/-- History connection of a branch ref. -/
structure HistoryConn where
  nodes : List CommitNode
  pageInfo : PageInfoStruct
  totalCount : Int
deriving DecidableEq

/-- Target of a ref (its commit history). -/
structure RefTarget where
  history : HistoryConn
deriving DecidableEq

/-- Ref node of the per-repository report response. -/
structure RefNode where
  name : String
  target : RefTarget
deriving DecidableEq

/-- Refs connection of the per-repository report response. -/
structure RefsConn where
  nodes : List RefNode
  pageInfo : PageInfoStruct
  totalCount : Int
deriving DecidableEq

/-- Repository field of `reportResponseStruct`. -/
structure RepositoryField where
  name : String
  mergedPR : PRConn
  openPR : PRConn
  refs : RefsConn
deriving DecidableEq

/-- reportResponseStruct: response of the per-repository report query. -/
structure reportResponseStruct where
  repository : RepositoryField
  rateLimit : RateLimitStruct
deriving DecidableEq

/-- Gregorian leap-year test, as validated by Go's date parsing. -/
def isLeapYear (y : Nat) : Bool :=
  (y % 4 = 0 && y % 100 != 0) || y % 400 = 0

/-- Number of days of month `m` in year `y`. -/
def daysInMonth (y m : Nat) : Nat :=
  if m = 2 then (if isLeapYear y then 29 else 28)
  else if m = 4 || m = 6 || m = 9 || m = 11 then 30
  else 31

/-- Mixed-radix encoding of a date-time (nanoseconds included) into
`Int`, strictly monotone in the lexicographic order of its fields.
Go's zero `Time` `(1,1,1,0,0,0,0)` encodes to `0`; year-0 date-times,
which Go parses and which lie strictly before the zero `Time`, encode
to negative values. -/
def encodeTime (y mo d h mi s ns : Nat) : Int :=
  (((((((y : Int) - 1) * 12 + ((mo : Int) - 1)) * 31 + ((d : Int) - 1)) * 24 + (h : Int)) * 60
      + (mi : Int)) * 60 + (s : Int)) * 1000000000 + (ns : Int)

/-- Numeric value of a decimal digit character. -/
def digitVal (c : Char) : Nat := c.toNat - 48

/-- Go's `getnum(s, true)` (the fixed `std0x` chunks): exactly two
digits. -/
def getnum2 : List Char → Option (Nat × List Char)
  | c1 :: c2 :: rest =>
    if c1.isDigit && c2.isDigit then some (digitVal c1 * 10 + digitVal c2, rest) else none
  | _ => none

/-- Go's `getnum(s, false)` (the `stdHour` chunk of this layout): one
digit is accepted when the following character is not a digit. -/
def getnum1or2 : List Char → Option (Nat × List Char)
  | [] => none
  | [c1] => if c1.isDigit then some (digitVal c1, []) else none
  | c1 :: c2 :: rest =>
    if c1.isDigit then
      if c2.isDigit then some (digitVal c1 * 10 + digitVal c2, rest)
      else some (digitVal c1, c2 :: rest)
    else none

/-- Go's `stdLongYear` chunk: a digit must start the field and `atoi`
of the four characters must succeed, so exactly four digits (years
0000-9999, no further range check). -/
def getnum4 : List Char → Option (Nat × List Char)
  | c1 :: c2 :: c3 :: c4 :: rest =>
    if c1.isDigit && c2.isDigit && c3.isDigit && c4.isDigit then
      some (((digitVal c1 * 10 + digitVal c2) * 10 + digitVal c3) * 10 + digitVal c4, rest)
    else none
  | _ => none

/-- A literal layout character, matched exactly. -/
def litChar (c : Char) : List Char → Option (List Char)
  | d :: rest => if d = c then some rest else none
  | [] => none

/-- Maximal leading run of digits. -/
def takeDigits : List Char → List Char × List Char
  | [] => ([], [])
  | c :: rest =>
    if c.isDigit then
      let acc := takeDigits rest
      (c :: acc.1, acc.2)
    else ([], c :: rest)

/-- Go's `parseNanoseconds` on an all-digit run: at most the first nine
digits are used, scaled to nanoseconds. -/
def nsOfDigits (ds : List Char) : Nat :=
  let t := ds.take 9
  (t.foldl (fun acc c => acc * 10 + digitVal c) 0) * 10 ^ (9 - t.length)

/-- The special case inside Go's `stdZeroSecond` handling: although the
layout has no fractional-second chunk, a comma or period followed by a
digit run after the seconds field is consumed and parsed as
nanoseconds; anything else is left in place. -/
def parseFrac : List Char → Nat × List Char
  | c1 :: c2 :: rest =>
    if (c1 = '.' || c1 = ',') && c2.isDigit then
      let acc := takeDigits (c2 :: rest)
      (nsOfDigits acc.1, acc.2)
    else (0, c1 :: c2 :: rest)
  | other => (0, other)

/-- Model of Go's `time.Parse(ISO_FORM, s)`, chunk by chunk for the
layout `2006-01-02T15:04:05Z`: four-digit year, literal `-`, two-digit
month, literal `-`, two-digit day, literal `T`, one-or-two-digit hour,
literal `:`, two-digit minute, literal `:`, two-digit second, optional
fractional second, trailing literal `Z`, nothing after; month 1-12,
calendar-valid day, hour 0-23, minute and second 0-59, exactly the
range checks Go performs (the year is unchecked).  Returns the
monotone `Int` encoding of the accepted date-time. -/
def parseISO (s : String) : Option Int := do
  let (y, r) ← getnum4 s.data
  let r ← litChar '-' r
  let (mo, r) ← getnum2 r
  let r ← litChar '-' r
  let (d, r) ← getnum2 r
  let r ← litChar 'T' r
  let (h, r) ← getnum1or2 r
  let r ← litChar ':' r
  let (mi, r) ← getnum2 r
  let r ← litChar ':' r
  let (sec, r) ← getnum2 r
  let fr := parseFrac r
  let r ← litChar 'Z' fr.2
  match r with
  | [] =>
    if 1 ≤ mo && mo ≤ 12 && 1 ≤ d && d ≤ daysInMonth y mo
        && h ≤ 23 && mi ≤ 59 && sec ≤ 59 then
      some (encodeTime y mo d h mi sec fr.1)
    else none
  | _ => none

/-- The `t, _ := time.Parse(ISO_FORM, s)` idiom of the source: the
parse error is discarded, an unparseable string yields Go's zero
`Time`, encoded as `0` (which is not the minimum of the encoding:
year-0 date-times lie below it). -/
def goTimeParse (s : String) : Int := (parseISO s).getD 0

/-- Model of Go's `t.After(u)`: strictly later. -/
def timeAfter (t u : Int) : Bool := decide (u < t)

/-- Comparator of `ByActivity` (`Less(i, j)` of the source): more
timeline events sorts first. -/
def ByActivity.Less (p q : PRStruct) : Bool :=
  decide (q.timeline.totalCount < p.timeline.totalCount)

/-- Comparator of `ByAge` (`Less(i, j)` of the source): parse both
creation dates, discarding errors, and test `tj.After(ti)`. -/
def ByAge.Less (p q : PRStruct) : Bool :=
  timeAfter (goTimeParse q.createdAt) (goTimeParse p.createdAt)

/-- Modelled from the spec: the presentation sort for the "by activity"
ordering.  `report.go` defines only the comparator (`sort` is imported
nowhere; the import line is commented out), and the spec requires the
two orderings to be applied by a stable sort.  `List.mergeSort` is a
stable sort; it keeps `p` before `q` when `!(ByActivity.Less q p)`,
exactly as Go's `sort.Stable` arranges `a[i]` before `a[j]` when
`!Less(j, i)`. -/
def sortByActivity (l : List PRStruct) : List PRStruct :=
  l.mergeSort (fun p q => !(ByActivity.Less q p))

/-- Modelled from the spec: the presentation sort for the "by age"
ordering, a stable sort driven by the source comparator `ByAge.Less`
(see `sortByActivity`). -/
def sortByAge (l : List PRStruct) : List PRStruct :=
  l.mergeSort (fun p q => !(ByAge.Less q p))

/-- Result buckets of an `ActivityReport` (the anonymous `Result`
struct of the source). -/
structure ActivityResult where
  mergedPRs : List PRStruct
  openPRsWithActivity : List PRStruct
  openPRsWithoutActivity : List PRStruct
deriving DecidableEq

/-- ActivityReport object.  `Log` records whether a logging sink has
been installed (`true`) or the callback is `nil` (`false`, the state
left by `NewActivityReport`); calling a `nil` callback panics. -/
structure ActivityReport where
  organization : String
  duration : Int
  reportDate : Nat
  result : ActivityResult
  Log : Bool
  gitHubToken : String
deriving DecidableEq

/-- NewActivityReport: makes a new report; the `Log` callback is left
`nil` and the result buckets are the zero value (empty). -/
def NewActivityReport (org : String) (token : String) (duration : Int) : ActivityReport :=
  { organization := org
    gitHubToken := token
    duration := duration
    reportDate := 0
    result := { mergedPRs := [], openPRsWithActivity := [], openPRsWithoutActivity := [] }
    Log := false }

/-- Outcome of a (piece of a) run: a returned value, a returned Go
error (carried as its message string), or a runtime panic (the `nil`
`Log` dereference in `logf`). -/
inductive RunResult (α : Type) where
  | ok : α → RunResult α
  | err : String → RunResult α
  | panicked : RunResult α
deriving DecidableEq

/-- Repository-listing request, as characterized by the GraphQL query
text of the source: the cursor bound (absent for the first page), the
page size, whether `last:` rather than `first:` is used, and whether
`affiliations:OWNER` appears (it does exactly in the cursor-less query
variants). -/
structure RepoListRequest where
  cursor : Option String
  size : Nat
  useLast : Bool
  affiliationsOwner : Bool
deriving DecidableEq

/-- The request issued by `listSubsetRepositories` for a given cursor
argument: `last:10, affiliations:OWNER` without a cursor, otherwise
`first:10, after:cursor`. -/
def subsetReq (cursor : String) : RepoListRequest :=
  if cursor = "" then ⟨none, 10, true, true⟩ else ⟨some cursor, 10, false, false⟩

/-- The request issued by `listRepositories` for a given cursor
argument: `first:50, affiliations:OWNER` without a cursor, otherwise
`first:50, after:cursor`. -/
def fullReq (cursor : String) : RepoListRequest :=
  if cursor = "" then ⟨none, 50, false, true⟩ else ⟨some cursor, 50, false, false⟩

/-- Oracle standing for the GraphQL client: each issued request yields
either a deserialized response or a transport error (its message).
Both query families are keyed by the organization bound into the query;
the per-repository report query is keyed by the repository name (the
cutoff variables of a run are fixed, see `runGo`). -/
structure Remote where
  repoList : String → RepoListRequest → Except String repositoriesResponseStruct
  report : String → String → Except String reportResponseStruct

/-- Repository names carried by a listing response, in response order. -/
def repoNames (resp : repositoriesResponseStruct) : List String :=
  resp.organization.repositories.nodes.map (·.name)

/-- listSubsetRepositories: issues exactly one listing request at the
given cursor and returns that response's repository names without
inspecting `hasNextPage`; `logf` runs after a successful call (a `nil`
`Log` panics).  The second component is the list of issued requests. -/
def listSubsetRepositoriesGo (gr : ActivityReport) (remote : Remote)
    (organization : String) (cursor : String) :
    RunResult (List String) × List RepoListRequest :=
  let req := subsetReq cursor
  match remote.repoList organization req with
  | .error e => (.err e, [req])
  | .ok respData =>
    if gr.Log then (.ok (repoNames respData), [req]) else (.panicked, [req])

/-- listRepositories: issues the listing request at the given cursor,
appends the response's names, and while `hasNextPage` holds re-issues
the query at `endCursor`, appending the recursive result; the first
failing call aborts the whole traversal.  `logf` runs after each
successful page once its recursion has returned.  Go's unbounded
recursion is modelled with a fuel parameter; exhausted fuel is a model
artifact reported as an error (every theorem supplies ample fuel). -/
def listRepositoriesGo (gr : ActivityReport) (remote : Remote)
    (organization : String) :
    Nat → String → RunResult (List String) × List RepoListRequest
  | 0, _ => (.err "model artifact: recursion fuel exhausted", [])
  | fuel + 1, cursor =>
    let req := fullReq cursor
    match remote.repoList organization req with
    | .error e => (.err e, [req])
    | .ok respData =>
      if respData.organization.repositories.pageInfo.hasNextPage then
        match listRepositoriesGo gr remote organization fuel
            respData.organization.repositories.pageInfo.endCursor with
        | (.err e, reqs) => (.err e, req :: reqs)
        | (.panicked, reqs) => (.panicked, req :: reqs)
        | (.ok additionalRepos, reqs) =>
          if gr.Log then (.ok (repoNames respData ++ additionalRepos), req :: reqs)
          else (.panicked, req :: reqs)
      else
        if gr.Log then (.ok (repoNames respData), [req]) else (.panicked, [req])

/-- reportRepository: issues the one combined per-repository query; on
success `logf` runs (a `nil` `Log` panics) and the raw response is
returned.  The cutoff `since` is bound into the query's date variables;
the oracle's answer for a repository is fixed for the run. -/
def reportRepositoryGo (gr : ActivityReport) (remote : Remote)
    (organization : String) (repository : String) (since : Nat) :
    RunResult reportResponseStruct :=
  match remote.report organization repository with
  | .error e => .err e
  | .ok respData => if gr.Log then .ok respData else .panicked

/-- Merged-PR extraction loop of `Run`: parse `MergedAt` discarding the
error, keep the record iff the result is strictly after `since`,
stamping the repository name onto kept records. -/
def extractMerged (repoName : String) (since : Nat) : List PRStruct → List PRStruct
  | [] => []
  | pr :: rest =>
    if timeAfter (goTimeParse pr.mergedAt) since then
      { pr with repository := repoName } :: extractMerged repoName since rest
    else extractMerged repoName since rest

/-- Open-PR extraction loop of `Run`: every record is stamped with the
repository name, then routed to the with-activity bucket iff its
timeline event count is positive, else to the without-activity
bucket. -/
def extractOpen (repoName : String) : List PRStruct → List PRStruct × List PRStruct
  | [] => ([], [])
  | pr :: rest =>
    let stamped := { pr with repository := repoName }
    let acc := extractOpen repoName rest
    if 0 < pr.timeline.totalCount then (stamped :: acc.1, acc.2)
    else (acc.1, stamped :: acc.2)

/-- Report-building body of `Run`'s per-repository loop: append the
classified records of one raw response onto the accumulator buckets. -/
def classifyRepoGo (gr : ActivityReport) (report : reportResponseStruct)
    (repoName : String) (since : Nat) : ActivityReport :=
  { gr with
    result :=
      { mergedPRs :=
          gr.result.mergedPRs ++ extractMerged repoName since report.repository.mergedPR.nodes
        openPRsWithActivity :=
          gr.result.openPRsWithActivity ++ (extractOpen repoName report.repository.openPR.nodes).1
        openPRsWithoutActivity :=
          gr.result.openPRsWithoutActivity ++ (extractOpen repoName report.repository.openPR.nodes).2 } }

/-- Per-repository loop of `Run`: fetch each repository's report in
enumeration order, abort on the first failure (returning the
accumulator as it stands and an error naming the repository), classify
on success; after the loop the three summary `logf` calls run.  The
third component lists the repositories for which a report request was
issued. -/
def runGoLoop (remote : Remote) (since : Nat) :
    ActivityReport → List String → ActivityReport × RunResult Unit × List String
  | gr, [] =>
    if gr.Log then (gr, .ok (), []) else (gr, .panicked, [])
  | gr, repoName :: rest =>
    match reportRepositoryGo gr remote gr.organization repoName since with
    | .err e2 =>
      (gr, .err s!"An error occured during report for {repoName}: {e2}\n", [repoName])
    | .panicked => (gr, .panicked, [repoName])
    | .ok report =>
      let gr2 := classifyRepoGo gr report repoName since
      let next := runGoLoop remote since gr2 rest
      (next.1, next.2.1, repoName :: next.2.2)

/-- Full observable behaviour of one `Run` call: final state of the
receiver (its in-place mutations included), the outcome, and the
requests issued on the wire. -/
structure RunTrace where
  final : ActivityReport
  outcome : RunResult Unit
  repoListRequests : List RepoListRequest
  reportRequests : List String
deriving DecidableEq

/-- Run: stamps the report date, enumerates repositories through
`listSubsetRepositories` with an empty cursor, then processes each
repository in order.  `now` and `since` are the run's clock readings
(`since = now.AddDate(0, 0, -Duration)` in the source); the remote
oracle is queried with `gr.Organization` exactly as the source binds
it. -/
def runGo (gr : ActivityReport) (remote : Remote) (now since : Nat) : RunTrace :=
  let gr1 := { gr with reportDate := now }
  match listSubsetRepositoriesGo gr1 remote gr1.organization "" with
  | (.err e, reqs) =>
    { final := gr1
      outcome := .err s!"An error occured during repositories listing {e}\n"
      repoListRequests := reqs
      reportRequests := [] }
  | (.panicked, reqs) =>
    { final := gr1, outcome := .panicked, repoListRequests := reqs, reportRequests := [] }
  | (.ok repositories, reqs) =>
    let next := runGoLoop remote since gr1 repositories
    { final := next.1
      outcome := next.2.1
      repoListRequests := reqs
      reportRequests := next.2.2 }

/-- Concatenation of per-repository record lists over an enumeration,
in enumeration order (specification-side accumulator shape). -/
def flatOver (f : String → List PRStruct) : List String → List PRStruct
  | [] => []
  | r :: rest => f r ++ flatOver f rest

/-- Neutral page info for concrete test responses. -/
def piNone : PageInfoStruct := { hasNextPage := false, startCursor := "", endCursor := "", hasPreviousPage := false }

/-- Neutral rate-limit snapshot for concrete test responses. -/
def rlDemo : RateLimitStruct := { limit := 5000, cost := 1, remaining := 4999, resetAt := "" }

/-- Builds a repository-listing response from names and pagination data. -/
def mkRepoListResp (names : List String) (hasNext : Bool) (endCur : String) :
    repositoriesResponseStruct :=
  { organization :=
      { repositories :=
          { nodes := names.map (fun n => { name := n, owner := { login := "" } })
            pageInfo := { hasNextPage := hasNext, startCursor := "", endCursor := endCur, hasPreviousPage := false }
            totalCount := names.length } }
    rateLimit := rlDemo }

/-- Builds a pull-request record for concrete test responses. -/
def mkPR (number : Int) (createdAt mergedAt state : String) (events : Int) : PRStruct :=
  { number := number
    title := "t"
    repository := ""
    createdAt := createdAt
    mergedAt := mergedAt
    state := state
    participants := { nodes := [], pageInfo := piNone, totalCount := 0 }
    timeline := { totalCount := events } }

/-- Builds a per-repository report response from merged and open PR lists. -/
def mkReportResp (merged opened : List PRStruct) : reportResponseStruct :=
  { repository :=
      { name := ""
        mergedPR := { nodes := merged, pageInfo := piNone, totalCount := merged.length }
        openPR := { nodes := opened, pageInfo := piNone, totalCount := opened.length }
        refs := { nodes := [], pageInfo := piNone, totalCount := 0 } }
    rateLimit := rlDemo }

theorem extractMerged_eq_filter (repoName : String) (since : Nat) :
    ∀ nodes : List PRStruct,
    extractMerged repoName since nodes =
      (nodes.filter (fun pr => timeAfter (goTimeParse pr.mergedAt) since)).map
        (fun pr => { pr with repository := repoName })
  | [] => rfl
  | pr :: rest => by
    by_cases h : timeAfter (goTimeParse pr.mergedAt) since
    · simp [extractMerged, h, extractMerged_eq_filter repoName since rest, List.filter_cons]
    · simp [extractMerged, h, extractMerged_eq_filter repoName since rest, List.filter_cons]

theorem extractOpen_fst (repoName : String) :
    ∀ nodes : List PRStruct,
    (extractOpen repoName nodes).1 =
      (nodes.filter (fun pr => decide (0 < pr.timeline.totalCount))).map
        (fun pr => { pr with repository := repoName })
  | [] => rfl
  | pr :: rest => by
    by_cases h : 0 < pr.timeline.totalCount
    · simp [extractOpen, h, extractOpen_fst repoName rest, List.filter_cons]
    · simp [extractOpen, h, extractOpen_fst repoName rest, List.filter_cons]

theorem extractOpen_snd (repoName : String) :
    ∀ nodes : List PRStruct,
    (extractOpen repoName nodes).2 =
      (nodes.filter (fun pr => !decide (0 < pr.timeline.totalCount))).map
        (fun pr => { pr with repository := repoName })
  | [] => rfl
  | pr :: rest => by
    by_cases h : 0 < pr.timeline.totalCount
    · simp [extractOpen, h, extractOpen_snd repoName rest, List.filter_cons]
    · simp [extractOpen, h, extractOpen_snd repoName rest, List.filter_cons]

theorem mem_flatOver (f : String → List PRStruct) (p : PRStruct) :
    ∀ l : List String, p ∈ flatOver f l ↔ ∃ r ∈ l, p ∈ f r
  | [] => by simp [flatOver]
  | r :: rest => by
    simp [flatOver, List.mem_append, mem_flatOver f p rest]

theorem runGoLoop_ok (remote : Remote) (since : Nat)
    (resps : String → reportResponseStruct) :
    ∀ (repos : List String) (gr : ActivityReport), gr.Log = true →
    (∀ r ∈ repos, remote.report gr.organization r = Except.ok (resps r)) →
    runGoLoop remote since gr repos =
      ({ gr with result :=
          { mergedPRs := gr.result.mergedPRs ++
              flatOver (fun r => extractMerged r since (resps r).repository.mergedPR.nodes) repos
            openPRsWithActivity := gr.result.openPRsWithActivity ++
              flatOver (fun r => (extractOpen r (resps r).repository.openPR.nodes).1) repos
            openPRsWithoutActivity := gr.result.openPRsWithoutActivity ++
              flatOver (fun r => (extractOpen r (resps r).repository.openPR.nodes).2) repos } },
        .ok (), repos)
  | [], ⟨org, dur, rd, ⟨m, w, wo⟩, log, tok⟩, hLog, _ => by
    dsimp only at hLog
    subst hLog
    simp [runGoLoop, flatOver]
  | r :: rest, ⟨org, dur, rd, ⟨m, w, wo⟩, log, tok⟩, hLog, hresp => by
    dsimp only at hLog
    subst hLog
    have hr : remote.report org r = Except.ok (resps r) :=
      hresp r (List.mem_cons_self r rest)
    have ihh := runGoLoop_ok remote since resps rest
      (classifyRepoGo ⟨org, dur, rd, ⟨m, w, wo⟩, true, tok⟩ (resps r) r since) rfl
      (fun r' hr' => hresp r' (List.mem_cons_of_mem _ hr'))
    simp only [runGoLoop, reportRepositoryGo, hr, if_true]
    rw [ihh]
    simp [classifyRepoGo, flatOver, List.append_assoc]

theorem runGo_ok (gr : ActivityReport) (remote : Remote) (now since : Nat)
    (lresp : repositoriesResponseStruct) (resps : String → reportResponseStruct)
    (hLog : gr.Log = true)
    (hlist : remote.repoList gr.organization (subsetReq "") = Except.ok lresp)
    (hresp : ∀ r ∈ repoNames lresp, remote.report gr.organization r = Except.ok (resps r)) :
    runGo gr remote now since =
      { final := { gr with
          reportDate := now
          result :=
            { mergedPRs := gr.result.mergedPRs ++
                flatOver (fun r => extractMerged r since (resps r).repository.mergedPR.nodes)
                  (repoNames lresp)
              openPRsWithActivity := gr.result.openPRsWithActivity ++
                flatOver (fun r => (extractOpen r (resps r).repository.openPR.nodes).1)
                  (repoNames lresp)
              openPRsWithoutActivity := gr.result.openPRsWithoutActivity ++
                flatOver (fun r => (extractOpen r (resps r).repository.openPR.nodes).2)
                  (repoNames lresp) } }
        outcome := .ok ()
        repoListRequests := [subsetReq ""]
        reportRequests := repoNames lresp } := by
  obtain ⟨org, dur, rd, ⟨m, w, wo⟩, log, tok⟩ := gr
  dsimp only at hLog hlist hresp
  subst hLog
  have hloop := runGoLoop_ok remote since resps (repoNames lresp)
    ⟨org, dur, now, ⟨m, w, wo⟩, true, tok⟩ rfl hresp
  simp only [runGo, listSubsetRepositoriesGo, hlist, if_true]
  rw [hloop]

/-- Report accumulator with an installed logging sink, for concrete
evaluations. -/
def demoGR : ActivityReport :=
  { NewActivityReport "demo-org" "tok" 7 with Log := true }

/-- C6: the bounded repository-enumeration variant
(`listSubsetRepositories`) issues exactly one page request — the fixed
small-page request `subsetReq cursor` (`last:10` resp. `first:10`) —
for every behaviour of the remote, and on a successful response returns
exactly that single page's repository names, never following
`hasNextPage`. -/
theorem c6_bounded_single_request (gr : ActivityReport) (remote : Remote)
    (organization cursor : String) :
    (listSubsetRepositoriesGo gr remote organization cursor).2 = [subsetReq cursor] ∧
    (∀ resp : repositoriesResponseStruct,
      remote.repoList organization (subsetReq cursor) = Except.ok resp →
      gr.Log = true →
      (listSubsetRepositoriesGo gr remote organization cursor).1 =
        RunResult.ok (repoNames resp)) := by
  constructor
  · unfold listSubsetRepositoriesGo
    cases h : remote.repoList organization (subsetReq cursor) with
    | error e => simp [h]
    | ok resp =>
      by_cases hl : gr.Log <;> simp [h, hl]
  · intro resp h hLog
    simp [listSubsetRepositoriesGo, h, hLog]

/-- Remote for the C6 witness: the single listing page reports
`hasNextPage = true`, which the bounded variant must ignore. -/
def c6Remote : Remote :=
  { repoList := fun _ _ => Except.ok (mkRepoListResp ["x", "y"] true "c9")
    report := fun _ _ => Except.error "unused" }

/-- Witness for C6 at a concrete remote whose page advertises a next
page. -/
theorem c6_bounded_single_request_witness :
    (listSubsetRepositoriesGo demoGR c6Remote "demo-org" "").2 = [subsetReq ""] ∧
    (listSubsetRepositoriesGo demoGR c6Remote "demo-org" "").1 = RunResult.ok ["x", "y"] :=
  ⟨(c6_bounded_single_request demoGR c6Remote "demo-org" "").1,
   (c6_bounded_single_request demoGR c6Remote "demo-org" "").2
     (mkRepoListResp ["x", "y"] true "c9") rfl rfl⟩

theorem listRepositoriesGo_step_ok (gr : ActivityReport) (remote : Remote)
    (org : String) (fuel : Nat) (cursor : String) (resp : repositoriesResponseStruct)
    (h : remote.repoList org (fullReq cursor) = Except.ok resp)
    (hn : resp.organization.repositories.pageInfo.hasNextPage = true) :
    listRepositoriesGo gr remote org (fuel + 1) cursor =
      match listRepositoriesGo gr remote org fuel
          resp.organization.repositories.pageInfo.endCursor with
      | (.err e, reqs) => (.err e, fullReq cursor :: reqs)
      | (.panicked, reqs) => (.panicked, fullReq cursor :: reqs)
      | (.ok additionalRepos, reqs) =>
        if gr.Log then (.ok (repoNames resp ++ additionalRepos), fullReq cursor :: reqs)
        else (.panicked, fullReq cursor :: reqs) := by
  simp [listRepositoriesGo, h, hn]

theorem listRepositoriesGo_last_ok (gr : ActivityReport) (remote : Remote)
    (org : String) (fuel : Nat) (cursor : String) (resp : repositoriesResponseStruct)
    (h : remote.repoList org (fullReq cursor) = Except.ok resp)
    (hn : resp.organization.repositories.pageInfo.hasNextPage = false)
    (hLog : gr.Log = true) :
    listRepositoriesGo gr remote org (fuel + 1) cursor =
      (.ok (repoNames resp), [fullReq cursor]) := by
  simp [listRepositoriesGo, h, hn, hLog]

theorem listRepositoriesGo_step_err (gr : ActivityReport) (remote : Remote)
    (org : String) (fuel : Nat) (cursor : String) (e : String)
    (h : remote.repoList org (fullReq cursor) = Except.error e) :
    listRepositoriesGo gr remote org (fuel + 1) cursor = (.err e, [fullReq cursor]) := by
  simp [listRepositoriesGo, h]

/-- C7: full pagination traversal (`listRepositories`).  First, for any
remote whose pages at the empty cursor, at `c1` and at `c2` have
`hasNextPage = [true, true, false]` and end cursors `c1`, `c2`, the
traversal returns the concatenation of the three pages' node names in
page order (re-issuing the query with `cursor = endCursor` while
`hasNextPage` holds).  Second, a failing page call aborts the whole
traversal with that error: no partial result is returned. -/
theorem c7_pagination_concat :
    (∀ (gr : ActivityReport) (remote : Remote) (org : String) (fuel : Nat)
       (r0 r1 r2 : repositoriesResponseStruct) (c1 c2 : String),
      gr.Log = true →
      remote.repoList org (fullReq "") = Except.ok r0 →
      r0.organization.repositories.pageInfo.hasNextPage = true →
      r0.organization.repositories.pageInfo.endCursor = c1 →
      remote.repoList org (fullReq c1) = Except.ok r1 →
      r1.organization.repositories.pageInfo.hasNextPage = true →
      r1.organization.repositories.pageInfo.endCursor = c2 →
      remote.repoList org (fullReq c2) = Except.ok r2 →
      r2.organization.repositories.pageInfo.hasNextPage = false →
      (listRepositoriesGo gr remote org (fuel + 3) "").1 =
        RunResult.ok (repoNames r0 ++ repoNames r1 ++ repoNames r2)) ∧
    (∀ (gr : ActivityReport) (remote : Remote) (org : String) (fuel : Nat)
       (r0 : repositoriesResponseStruct) (c1 e : String),
      remote.repoList org (fullReq "") = Except.ok r0 →
      r0.organization.repositories.pageInfo.hasNextPage = true →
      r0.organization.repositories.pageInfo.endCursor = c1 →
      remote.repoList org (fullReq c1) = Except.error e →
      (listRepositoriesGo gr remote org (fuel + 2) "").1 = RunResult.err e) := by
  constructor
  · intro gr remote org fuel r0 r1 r2 c1 c2 hLog h0 hn0 hc1 h1 hn1 hc2 h2 hn2
    show (listRepositoriesGo gr remote org (fuel + 2 + 1) "").1 = _
    rw [listRepositoriesGo_step_ok gr remote org (fuel + 2) "" r0 h0 hn0, hc1,
      listRepositoriesGo_step_ok gr remote org (fuel + 1) c1 r1 h1 hn1, hc2,
      listRepositoriesGo_last_ok gr remote org fuel c2 r2 h2 hn2 hLog]
    simp [hLog, List.append_assoc]
  · intro gr remote org fuel r0 c1 e h0 hn0 hc1 h1
    show (listRepositoriesGo gr remote org (fuel + 1 + 1) "").1 = _
    rw [listRepositoriesGo_step_ok gr remote org (fuel + 1) "" r0 h0 hn0, hc1,
      listRepositoriesGo_step_err gr remote org fuel c1 e h1]

/-- Remote for the C7 witness: three listing pages chained by cursors
`c1` and `c2`. -/
def c7Remote : Remote :=
  { repoList := fun _ req =>
      match req.cursor with
      | none => Except.ok (mkRepoListResp ["a"] true "c1")
      | some c =>
        if c = "c1" then Except.ok (mkRepoListResp ["b"] true "c2")
        else if c = "c2" then Except.ok (mkRepoListResp ["c"] false "")
        else Except.error "bad cursor"
    report := fun _ _ => Except.error "unused" }

/-- Remote for the C7 witness's abort half: the second page call
fails. -/
def c7ErrRemote : Remote :=
  { repoList := fun _ req =>
      match req.cursor with
      | none => Except.ok (mkRepoListResp ["a"] true "c1")
      | some _ => Except.error "boom"
    report := fun _ _ => Except.error "unused" }

/-- Witness for C7 at concrete three-page and failing remotes. -/
theorem c7_pagination_concat_witness :
    (listRepositoriesGo demoGR c7Remote "demo-org" 3 "").1 =
      RunResult.ok ["a", "b", "c"] ∧
    (listRepositoriesGo demoGR c7ErrRemote "demo-org" 2 "").1 = RunResult.err "boom" :=
  ⟨c7_pagination_concat.1 demoGR c7Remote "demo-org" 0
      (mkRepoListResp ["a"] true "c1") (mkRepoListResp ["b"] true "c2")
      (mkRepoListResp ["c"] false "") "c1" "c2"
      rfl rfl rfl rfl rfl rfl rfl rfl rfl,
   c7_pagination_concat.2 demoGR c7ErrRemote "demo-org" 0
      (mkRepoListResp ["a"] true "c1") "c1" "boom" rfl rfl rfl rfl⟩

/-- Organization of eleven repositories for the C1 evidence. -/
def c1Repos : List String :=
  ["r01", "r02", "r03", "r04", "r05", "r06", "r07", "r08", "r09", "r10", "r11"]

/-- An open pull request with recent activity, living in repository
`r01` only. -/
def c1PR : PRStruct := mkPR 1 "2024-05-01T10:00:00Z" "" "OPEN" 3

/-- Remote for the C1 evidence: the bounded `last:10` listing request
returns the last ten repository names, the full `first:50` request
returns all eleven; only `r01` has any pull request. -/
def c1Remote : Remote :=
  { repoList := fun _ req =>
      if req.useLast then Except.ok (mkRepoListResp (c1Repos.drop 1) false "")
      else Except.ok (mkRepoListResp c1Repos false "")
    report := fun _ repo =>
      if repo = "r01" then Except.ok (mkReportResp [] [c1PR])
      else Except.ok (mkReportResp [] []) }

/-- C1 (evidence of the divergence): on an organization of eleven
repositories, a successful `Run` issues exactly the one bounded
`subsetReq` listing request of `listSubsetRepositories` and fetches
reports only for the ten repositories of that single page, so `r01` —
which the full pagination traversal `listRepositories` does return —
is never fetched and its open pull request is missing from the run's
result; the claim's exhaustive enumeration (`listRepositories`) is
never invoked by `Run`. -/
theorem c1_run_uses_bounded_listing :
    (runGo demoGR c1Remote 0 0).repoListRequests = [subsetReq ""] ∧
    (runGo demoGR c1Remote 0 0).reportRequests = c1Repos.drop 1 ∧
    (runGo demoGR c1Remote 0 0).outcome = RunResult.ok () ∧
    (runGo demoGR c1Remote 0 0).final.result.openPRsWithActivity = [] ∧
    (listRepositoriesGo demoGR c1Remote "demo-org" 3 "").1 = RunResult.ok c1Repos ∧
    "r01" ∈ c1Repos ∧
    "r01" ∉ (runGo demoGR c1Remote 0 0).reportRequests := by
  refine ⟨rfl, rfl, rfl, rfl, rfl, by decide, by decide⟩

/-- C2: `NewActivityReport` leaves the `Log` callback `nil`, and any
run whose first remote call succeeds then reaches `logf`, which calls
the `nil` callback and panics — the run crashes instead of treating
logging as a no-op. -/
theorem c2_nil_log_panics (org token : String) (dur : Int) :
    (NewActivityReport org token dur).Log = false ∧
    (∀ (remote : Remote) (now since : Nat) (lresp : repositoriesResponseStruct),
      remote.repoList org (subsetReq "") = Except.ok lresp →
      (runGo (NewActivityReport org token dur) remote now since).outcome =
        RunResult.panicked) := by
  refine ⟨rfl, ?_⟩
  intro remote now since lresp h
  simp [runGo, listSubsetRepositoriesGo, NewActivityReport, h]

/-- Remote for the C2 witness: every call succeeds, so only logging can
abort the run. -/
def c2Remote : Remote :=
  { repoList := fun _ _ => Except.ok (mkRepoListResp ["a"] false "")
    report := fun _ _ => Except.ok (mkReportResp [] []) }

/-- Witness for C2: a fresh report (no sink installed) with an
all-successful remote still panics. -/
theorem c2_nil_log_panics_witness :
    (NewActivityReport "o" "t" 7).Log = false ∧
    (runGo (NewActivityReport "o" "t" 7) c2Remote 0 0).outcome = RunResult.panicked :=
  ⟨(c2_nil_log_panics "o" "t" 7).1,
   (c2_nil_log_panics "o" "t" 7).2 c2Remote 0 0 (mkRepoListResp ["a"] false "") rfl⟩

/-- A pull request merged well after the epoch of the encoding, used by
the C3 evidence. -/
def c3PR : PRStruct := mkPR 7 "2024-04-01T00:00:00Z" "2024-05-01T00:00:00Z" "MERGED" 0

/-- Remote for the C3 counterexample: three repositories, the report
call for the second one fails. -/
def c3Remote : Remote :=
  { repoList := fun _ _ => Except.ok (mkRepoListResp ["R1", "R2", "R3"] false "")
    report := fun _ repo =>
      if repo = "R1" then Except.ok (mkReportResp [c3PR] [])
      else if repo = "R2" then Except.error "boom"
      else Except.ok (mkReportResp [] []) }

/-- C3 counterexample: with the failure on the second of three
repositories, `Run` returns an error naming `R2`, yet the merged
pull request already classified from `R1` is still present in the
receiver's `Result` bucket — the partial `ActivityReport` is *not*
discarded, refuting the claim that no partially filled buckets remain
readable. -/
theorem c3_partial_results_remain_cex :
    (runGo demoGR c3Remote 0 0).outcome =
      RunResult.err "An error occured during report for R2: boom\n" ∧
    (runGo demoGR c3Remote 0 0).final.result.mergedPRs =
      [{ c3PR with repository := "R1" }] ∧
    (runGo demoGR c3Remote 0 0).reportRequests = ["R1", "R2"] := by
  refine ⟨by decide, rfl, rfl⟩

/-- C3 as amended: when the report call for a repository fails, the
run aborts at that first failure with an error naming the repository,
issuing no further report requests; the accumulator is returned exactly
as already filled by the repositories processed before the failure
(the partial result stays readable — it is not cleared). -/
theorem c3_first_failure_aborts_keeping_partial (remote : Remote) (since : Nat)
    (gr : ActivityReport) (r : String) (rest : List String) (e : String)
    (herr : remote.report gr.organization r = Except.error e) :
    runGoLoop remote since gr (r :: rest) =
      (gr, .err s!"An error occured during report for {r}: {e}\n", [r]) := by
  simp [runGoLoop, reportRepositoryGo, herr]

/-- Witness for the amended C3 at a concrete failing repository. -/
theorem c3_first_failure_aborts_keeping_partial_witness :
    runGoLoop c3Remote 0 demoGR ["R2", "R3"] =
      (demoGR, .err "An error occured during report for R2: boom\n", ["R2"]) :=
  c3_first_failure_aborts_keeping_partial c3Remote 0 demoGR "R2" ["R3"] "boom" rfl

/-- A pull request whose `state` field is `OPEN`, appearing among the
merged-PR query nodes, with a parseable `mergedAt` after the cutoff. -/
def c4PR : PRStruct := mkPR 5 "2024-01-01T00:00:00Z" "2024-03-04T05:06:07Z" "OPEN" 0

/-- C4 counterexample: classification puts `c4PR` — whose `state` is
`"OPEN"`, not `"MERGED"` — into `mergedPRs`, because the code filters
the merged-PR query nodes by `mergedAt` alone and never consults
`state` (the merged-PR query does not even fetch that field); this
refutes the claimed `state == MERGED` biconditional. -/
theorem c4_state_not_checked_cex :
    (classifyRepoGo demoGR (mkReportResp [c4PR] []) "repo" 0).result.mergedPRs =
      [{ c4PR with repository := "repo" }] ∧
    ({ c4PR with repository := "repo" } : PRStruct).state = "OPEN" := by
  refine ⟨rfl, rfl⟩

/-- C4 as amended: a record is in `mergedPRs` iff it is one of the
repository's merged-PR query nodes, stamped with the repository name,
whose `mergedAt` parses to a time strictly after `since`; the `state`
field is not consulted.  A `mergedAt` that fails to parse yields Go's
zero time, which is never after the cutoff, so the record is silently
excluded rather than raising an error. -/
theorem c4_merged_time_filter (gr : ActivityReport) (resp : reportResponseStruct)
    (repoName : String) (since : Nat) :
    (classifyRepoGo gr resp repoName since).result.mergedPRs =
      gr.result.mergedPRs ++
        (resp.repository.mergedPR.nodes.filter
          (fun pr => timeAfter (goTimeParse pr.mergedAt) since)).map
          (fun pr => { pr with repository := repoName }) ∧
    (∀ pr : PRStruct, parseISO pr.mergedAt = none →
      timeAfter (goTimeParse pr.mergedAt) since = false) := by
  constructor
  · simp [classifyRepoGo, extractMerged_eq_filter]
  · intro pr h
    have hz : goTimeParse pr.mergedAt = 0 := by simp [goTimeParse, h]
    simp only [hz, timeAfter, decide_eq_false_iff_not]
    omega

/-- Witness for the amended C4: one included merged node, one
unparseable (`mergedAt = ""`) node excluded despite `state = MERGED`. -/
theorem c4_merged_time_filter_witness :
    (classifyRepoGo demoGR (mkReportResp [c4PR, mkPR 6 "" "" "MERGED" 0] []) "x" 0).result.mergedPRs =
      [{ c4PR with repository := "x" }] ∧
    timeAfter (goTimeParse (mkPR 6 "" "" "MERGED" 0).mergedAt) 0 = false :=
  ⟨(c4_merged_time_filter demoGR (mkReportResp [c4PR, mkPR 6 "" "" "MERGED" 0] []) "x" 0).1.trans
      (by decide),
   (c4_merged_time_filter demoGR (mkReportResp [c4PR, mkPR 6 "" "" "MERGED" 0] []) "x" 0).2
      (mkPR 6 "" "" "MERGED" 0) (by decide)⟩

theorem filter_timeline_map_stamp (f : Int → Bool) (r : String) :
    ∀ n : List PRStruct,
    (n.filter (fun pr => f pr.timeline.totalCount)).map (fun pr => { pr with repository := r }) =
      (n.map (fun pr => { pr with repository := r })).filter (fun p => f p.timeline.totalCount)
  | [] => rfl
  | pr :: rest => by
    by_cases h : f pr.timeline.totalCount = true
    · simp [List.filter_cons, h, filter_timeline_map_stamp f r rest]
    · simp only [Bool.not_eq_true] at h
      simp [List.filter_cons, h, filter_timeline_map_stamp f r rest]

theorem flatOver_filter (g : String → List PRStruct) (p : PRStruct → Bool) :
    ∀ l : List String,
    flatOver (fun r => (g r).filter p) l = (flatOver g l).filter p
  | [] => rfl
  | r :: rest => by
    simp [flatOver, List.filter_append, flatOver_filter g p rest]

/-- C5: assuming the remote honours the `states:[OPEN]` filter of the
open-PR query (every open-PR node carries `state = "OPEN"`), the two
open buckets of a successful run partition the stamped open pull
requests of all enumerated repositories exactly: the with-activity
bucket is the sub-list with a positive timeline event count, the
without-activity bucket is the complementary sub-list (so every open PR
lands in exactly one bucket and none is dropped), and every record in
either bucket has `state = "OPEN"`. -/
theorem c5_open_partition (gr : ActivityReport) (remote : Remote) (now since : Nat)
    (lresp : repositoriesResponseStruct) (resps : String → reportResponseStruct)
    (hLog : gr.Log = true)
    (hw : gr.result.openPRsWithActivity = [])
    (hwo : gr.result.openPRsWithoutActivity = [])
    (hlist : remote.repoList gr.organization (subsetReq "") = Except.ok lresp)
    (hresp : ∀ r ∈ repoNames lresp, remote.report gr.organization r = Except.ok (resps r))
    (hstate : ∀ r ∈ repoNames lresp, ∀ pr ∈ (resps r).repository.openPR.nodes,
      pr.state = "OPEN") :
    (runGo gr remote now since).final.result.openPRsWithActivity =
      (flatOver (fun r => ((resps r).repository.openPR.nodes).map
        (fun pr => { pr with repository := r })) (repoNames lresp)).filter
        (fun p => decide (0 < p.timeline.totalCount)) ∧
    (runGo gr remote now since).final.result.openPRsWithoutActivity =
      (flatOver (fun r => ((resps r).repository.openPR.nodes).map
        (fun pr => { pr with repository := r })) (repoNames lresp)).filter
        (fun p => !decide (0 < p.timeline.totalCount)) ∧
    (∀ p ∈ (runGo gr remote now since).final.result.openPRsWithActivity,
      p.state = "OPEN" ∧ 0 < p.timeline.totalCount) ∧
    (∀ p ∈ (runGo gr remote now since).final.result.openPRsWithoutActivity,
      p.state = "OPEN" ∧ ¬ 0 < p.timeline.totalCount) := by
  have hrun := runGo_ok gr remote now since lresp resps hLog hlist hresp
  have hfst : (fun r => (extractOpen r (resps r).repository.openPR.nodes).1) =
      (fun r => (((resps r).repository.openPR.nodes).map
        (fun pr => { pr with repository := r })).filter
        (fun p => decide (0 < p.timeline.totalCount))) :=
    funext fun r => (extractOpen_fst r _).trans
      (filter_timeline_map_stamp (fun c => decide (0 < c)) r _)
  have hsnd : (fun r => (extractOpen r (resps r).repository.openPR.nodes).2) =
      (fun r => (((resps r).repository.openPR.nodes).map
        (fun pr => { pr with repository := r })).filter
        (fun p => !decide (0 < p.timeline.totalCount))) :=
    funext fun r => (extractOpen_snd r _).trans
      (filter_timeline_map_stamp (fun c => !decide (0 < c)) r _)
  have h1 : (runGo gr remote now since).final.result.openPRsWithActivity =
      (flatOver (fun r => ((resps r).repository.openPR.nodes).map
        (fun pr => { pr with repository := r })) (repoNames lresp)).filter
        (fun p => decide (0 < p.timeline.totalCount)) := by
    rw [hrun]
    dsimp only
    rw [hw, List.nil_append, hfst, flatOver_filter]
  have h2 : (runGo gr remote now since).final.result.openPRsWithoutActivity =
      (flatOver (fun r => ((resps r).repository.openPR.nodes).map
        (fun pr => { pr with repository := r })) (repoNames lresp)).filter
        (fun p => !decide (0 < p.timeline.totalCount)) := by
    rw [hrun]
    dsimp only
    rw [hwo, List.nil_append, hsnd, flatOver_filter]
  have hmem : ∀ p : PRStruct, p ∈ flatOver (fun r => ((resps r).repository.openPR.nodes).map
      (fun pr => { pr with repository := r })) (repoNames lresp) → p.state = "OPEN" := by
    intro p hp
    obtain ⟨r, hr, hpr⟩ := (mem_flatOver _ p (repoNames lresp)).mp hp
    obtain ⟨pr, hprmem, rfl⟩ := List.mem_map.mp hpr
    exact hstate r hr pr hprmem
  refine ⟨h1, h2, ?_, ?_⟩
  · intro p hp
    rw [h1] at hp
    obtain ⟨hin, hpred⟩ := List.mem_filter.mp hp
    exact ⟨hmem p hin, of_decide_eq_true hpred⟩
  · intro p hp
    rw [h2] at hp
    obtain ⟨hin, hpred⟩ := List.mem_filter.mp hp
    refine ⟨hmem p hin, ?_⟩
    simpa using hpred

/-- Open pull request with activity, for the C5 witness. -/
def c5OpenA : PRStruct := mkPR 1 "2024-02-01T00:00:00Z" "" "OPEN" 3

/-- Open pull request without activity, for the C5 witness. -/
def c5OpenB : PRStruct := mkPR 2 "2024-02-02T00:00:00Z" "" "OPEN" 0

/-- Remote for the C5 witness: one repository `S` with one active and
one inactive open pull request. -/
def c5Remote : Remote :=
  { repoList := fun _ _ => Except.ok (mkRepoListResp ["S"] false "")
    report := fun _ _ => Except.ok (mkReportResp [] [c5OpenA, c5OpenB]) }

/-- Witness for C5 at a concrete one-repository remote. -/
theorem c5_open_partition_witness :
    (runGo demoGR c5Remote 0 0).final.result.openPRsWithActivity =
      [{ c5OpenA with repository := "S" }] ∧
    (runGo demoGR c5Remote 0 0).final.result.openPRsWithoutActivity =
      [{ c5OpenB with repository := "S" }] := by
  have h := c5_open_partition demoGR c5Remote 0 0 (mkRepoListResp ["S"] false "")
    (fun _ => mkReportResp [] [c5OpenA, c5OpenB]) rfl rfl rfl rfl
    (by intro r hr; rfl)
    (by intro r hr pr hpr; fin_cases hpr <;> rfl)
  exact ⟨h.1.trans (by decide), h.2.1.trans (by decide)⟩

/-- C10: `NewActivityReport` starts with all three result buckets
empty, and `Run` only appends: a second successful `Run` on the same
receiver over the same remote data leaves every bucket equal to its
contents after the first run concatenated with itself (every record
present twice) — `Run` never resets the accumulator and is not
idempotent on it. -/
theorem c10_run_appends :
    (∀ (org token : String) (dur : Int),
      (NewActivityReport org token dur).result.mergedPRs = [] ∧
      (NewActivityReport org token dur).result.openPRsWithActivity = [] ∧
      (NewActivityReport org token dur).result.openPRsWithoutActivity = []) ∧
    (∀ (gr : ActivityReport) (remote : Remote) (now since : Nat)
       (lresp : repositoriesResponseStruct) (resps : String → reportResponseStruct),
      gr.Log = true →
      gr.result.mergedPRs = [] →
      gr.result.openPRsWithActivity = [] →
      gr.result.openPRsWithoutActivity = [] →
      remote.repoList gr.organization (subsetReq "") = Except.ok lresp →
      (∀ r ∈ repoNames lresp, remote.report gr.organization r = Except.ok (resps r)) →
      (runGo gr remote now since).outcome = RunResult.ok () ∧
      (runGo (runGo gr remote now since).final remote now since).outcome = RunResult.ok () ∧
      (runGo (runGo gr remote now since).final remote now since).final.result.mergedPRs =
        (runGo gr remote now since).final.result.mergedPRs ++
          (runGo gr remote now since).final.result.mergedPRs ∧
      (runGo (runGo gr remote now since).final remote now since).final.result.openPRsWithActivity =
        (runGo gr remote now since).final.result.openPRsWithActivity ++
          (runGo gr remote now since).final.result.openPRsWithActivity ∧
      (runGo (runGo gr remote now since).final remote now since).final.result.openPRsWithoutActivity =
        (runGo gr remote now since).final.result.openPRsWithoutActivity ++
          (runGo gr remote now since).final.result.openPRsWithoutActivity) := by
  refine ⟨fun org token dur => ⟨rfl, rfl, rfl⟩, ?_⟩
  intro gr remote now since lresp resps hLog hm hw hwo hlist hresp
  have h1 := runGo_ok gr remote now since lresp resps hLog hlist hresp
  have h2 := runGo_ok (runGo gr remote now since).final remote now since lresp resps
    (by rw [h1]; exact hLog) (by rw [h1]; exact hlist) (by rw [h1]; exact hresp)
  refine ⟨by simp [h1], by simp [h2], ?_, ?_, ?_⟩
  · rw [h2, h1]
    dsimp only
    rw [hm, List.nil_append]
  · rw [h2, h1]
    dsimp only
    rw [hw, List.nil_append]
  · rw [h2, h1]
    dsimp only
    rw [hwo, List.nil_append]

/-- Remote for the C10 witness: one repository `S` with one recent
merged pull request and one active open pull request. -/
def c10Remote : Remote :=
  { repoList := fun _ _ => Except.ok (mkRepoListResp ["S"] false "")
    report := fun _ _ => Except.ok (mkReportResp [c3PR] [c5OpenA]) }

/-- Witness for C10: after two successful runs over the same remote
data, the merged bucket holds its single record twice. -/
theorem c10_run_appends_witness :
    (NewActivityReport "o" "t" 7).result.mergedPRs = [] ∧
    (runGo demoGR c10Remote 0 0).outcome = RunResult.ok () ∧
    (runGo (runGo demoGR c10Remote 0 0).final c10Remote 0 0).final.result.mergedPRs =
      (runGo demoGR c10Remote 0 0).final.result.mergedPRs ++
        (runGo demoGR c10Remote 0 0).final.result.mergedPRs := by
  have h := c10_run_appends.2 demoGR c10Remote 0 0 (mkRepoListResp ["S"] false "")
    (fun _ => mkReportResp [c3PR] [c5OpenA]) rfl rfl rfl rfl rfl
    (by intro r hr; rfl)
  exact ⟨(c10_run_appends.1 "o" "t" 7).1, h.1, h.2.2.1⟩

theorem byAgeLE_trans (a b c : PRStruct) :
    (!(ByAge.Less b a)) = true → (!(ByAge.Less c b)) = true → (!(ByAge.Less c a)) = true := by
  simp only [ByAge.Less, timeAfter, Bool.not_eq_true', decide_eq_false_iff_not]
  omega

theorem byAgeLE_total (a b : PRStruct) :
    ((!(ByAge.Less b a)) || (!(ByAge.Less a b))) = true := by
  simp only [ByAge.Less, timeAfter, Bool.or_eq_true, Bool.not_eq_true',
    decide_eq_false_iff_not]
  omega

theorem byActivityLE_trans (a b c : PRStruct) :
    (!(ByActivity.Less b a)) = true → (!(ByActivity.Less c b)) = true →
    (!(ByActivity.Less c a)) = true := by
  simp only [ByActivity.Less, Bool.not_eq_true', decide_eq_false_iff_not, Int.not_lt]
  omega

theorem byActivityLE_total (a b : PRStruct) :
    ((!(ByActivity.Less b a)) || (!(ByActivity.Less a b))) = true := by
  simp only [ByActivity.Less, Bool.or_eq_true, Bool.not_eq_true',
    decide_eq_false_iff_not, Int.not_lt]
  omega

/-- Record with an unparseable creation date, for the C8 evidence. -/
def c8Bad : PRStruct := mkPR 1 "" "" "OPEN" 0

/-- Record created in 2020, for the C8 witness. -/
def c8Old : PRStruct := mkPR 2 "2020-01-01T00:00:00Z" "" "OPEN" 0

/-- Record created in 2024, for the C8 witness. -/
def c8New : PRStruct := mkPR 3 "2024-01-01T00:00:00Z" "" "OPEN" 0

/-- Record created in year 0, for the C8 counterexample: Go's
`time.Parse` accepts a four-digit year `0000` (no year-range check),
yielding a time strictly before the zero `Time`. -/
def c8Year0 : PRStruct := mkPR 4 "0000-12-31T23:59:59Z" "" "OPEN" 0

/-- C8 counterexample: a record with the parseable creation date
`0000-12-31T23:59:59Z` sorts strictly before a record whose
`createdAt` fails to parse, because an unparseable timestamp is
assigned Go's zero `Time` (January 1 of year 1), which is *not* the
oldest possible value — year-0 timestamps precede it.  So comparing
the unparseable record against this one does not treat the unparseable
side as earlier, refuting the claim. -/
theorem c8_unparseable_not_oldest_cex :
    parseISO c8Bad.createdAt = none ∧
    parseISO c8Year0.createdAt ≠ none ∧
    ByAge.Less c8Year0 c8Bad = true ∧
    goTimeParse c8Year0.createdAt < goTimeParse c8Bad.createdAt := by
  refine ⟨rfl, by decide, by decide, by decide⟩

/-- C8 as amended: the `ByAge` comparator is the strict ascending order
on the parsed `createdAt` timestamps (parse errors discarded); a
record whose `createdAt` fails to parse is assigned Go's zero time
(January 1 of year 1, encoded `0`), so no record whose `createdAt`
parses to a time at or after the zero time ever sorts strictly before
it — but the zero time is not the oldest possible value, since Go
parses year-0 timestamps, which precede it.  Every comparison is a
total Boolean function, so sorting can neither throw nor abort: the
stable sort driven by the comparator permutes the input into ascending
parsed-`createdAt` order. -/
theorem c8_byage_ordering :
    (∀ p q : PRStruct, ByAge.Less p q = true ↔
      goTimeParse p.createdAt < goTimeParse q.createdAt) ∧
    (∀ p : PRStruct, parseISO p.createdAt = none →
      goTimeParse p.createdAt = 0 ∧
      ∀ q : PRStruct, 0 ≤ goTimeParse q.createdAt → ByAge.Less q p = false) ∧
    (∀ l : List PRStruct, List.Perm (sortByAge l) l ∧
      (sortByAge l).Pairwise
        (fun p q => goTimeParse p.createdAt ≤ goTimeParse q.createdAt)) := by
  refine ⟨?_, ?_, ?_⟩
  · intro p q
    simp [ByAge.Less, timeAfter]
  · intro p h
    have hz : goTimeParse p.createdAt = 0 := by simp [goTimeParse, h]
    refine ⟨hz, ?_⟩
    intro q hq
    simp only [ByAge.Less, timeAfter, hz, decide_eq_false_iff_not]
    omega
  · intro l
    refine ⟨List.mergeSort_perm l _, ?_⟩
    have hs := List.sorted_mergeSort byAgeLE_trans byAgeLE_total l
    refine hs.imp ?_
    intro a b hab
    simp only [Bool.not_eq_true', ByAge.Less, timeAfter,
      decide_eq_false_iff_not] at hab
    omega

/-- Witness for the amended C8 at concrete records: an ascending
comparison, an unparseable record assigned the zero time and never
preceded by an at-or-after-zero-time record, and a concrete sorted
list. -/
theorem c8_byage_ordering_witness :
    ByAge.Less c8Old c8New = true ∧
    goTimeParse c8Bad.createdAt = 0 ∧
    ByAge.Less c8New c8Bad = false ∧
    (List.Perm (sortByAge [c8New, c8Bad, c8Old]) [c8New, c8Bad, c8Old] ∧
      (sortByAge [c8New, c8Bad, c8Old]).Pairwise
        (fun p q => goTimeParse p.createdAt ≤ goTimeParse q.createdAt)) :=
  ⟨(c8_byage_ordering.1 c8Old c8New).mpr (by decide),
   (c8_byage_ordering.2.1 c8Bad rfl).1,
   (c8_byage_ordering.2.1 c8Bad rfl).2 c8New (by decide),
   c8_byage_ordering.2.2 [c8New, c8Bad, c8Old]⟩

/-- C9: the `ByActivity` comparator is the strict descending order
keyed on the timeline event count, and the stable sort it drives is a
descending sort on that key which preserves the relative input order of
records with equal counts (stability, stated as: any in-order pair with
equal keys kept as a sublist of the sorted output). -/
theorem c9_byactivity_ordering :
    (∀ p q : PRStruct, ByActivity.Less p q = true ↔
      q.timeline.totalCount < p.timeline.totalCount) ∧
    (∀ l : List PRStruct, List.Perm (sortByActivity l) l ∧
      (sortByActivity l).Pairwise
        (fun p q => q.timeline.totalCount ≤ p.timeline.totalCount)) ∧
    (∀ (l : List PRStruct) (a b : PRStruct),
      a.timeline.totalCount = b.timeline.totalCount →
      List.Sublist [a, b] l → List.Sublist [a, b] (sortByActivity l)) := by
  refine ⟨?_, ?_, ?_⟩
  · intro p q
    simp [ByActivity.Less]
  · intro l
    refine ⟨List.mergeSort_perm l _, ?_⟩
    have hs := List.sorted_mergeSort byActivityLE_trans byActivityLE_total l
    refine hs.imp ?_
    intro a b hab
    simp only [Bool.not_eq_true', ByActivity.Less,
      decide_eq_false_iff_not, Int.not_lt] at hab
    exact hab
  · intro l a b heq h
    have hab : (!(ByActivity.Less b a)) = true := by
      simp [ByActivity.Less, heq]
    exact List.pair_sublist_mergeSort byActivityLE_trans byActivityLE_total hab h

/-- Record with two timeline events, first of the equal-key pair of the
C9 witness. -/
def c9A : PRStruct := mkPR 1 "2024-01-01T00:00:00Z" "" "OPEN" 2

/-- Record with two timeline events, second of the equal-key pair of
the C9 witness. -/
def c9B : PRStruct := mkPR 2 "2024-01-02T00:00:00Z" "" "OPEN" 2

/-- Record with five timeline events, for the C9 witness. -/
def c9High : PRStruct := mkPR 3 "2024-01-03T00:00:00Z" "" "OPEN" 5

/-- Witness for C9 at concrete records with an equal-count pair. -/
theorem c9_byactivity_ordering_witness :
    ByActivity.Less c9High c9A = true ∧
    (List.Perm (sortByActivity [c9A, c9High, c9B]) [c9A, c9High, c9B] ∧
      (sortByActivity [c9A, c9High, c9B]).Pairwise
        (fun p q => q.timeline.totalCount ≤ p.timeline.totalCount)) ∧
    List.Sublist [c9A, c9B] (sortByActivity [c9A, c9High, c9B]) :=
  ⟨(c9_byactivity_ordering.1 c9High c9A).mpr (by decide),
   c9_byactivity_ordering.2.1 [c9A, c9High, c9B],
   c9_byactivity_ordering.2.2 [c9A, c9High, c9B] c9A c9B rfl
     (List.Sublist.cons₂ c9A (List.Sublist.cons c9High
       (List.Sublist.cons₂ c9B List.Sublist.slnil)))⟩

end ghreport
